import Mathlib

/-!
Verification of the object-tracking WebSocket receiver in
src/blenderscript.py.

The script keeps a process-wide registry inside the class
ObjectTrackingReceiver: the dictionary tracking_objects maps a string
label to the Blender object visualizing that detection, and the
dictionary visible_objects maps the same labels to the last visibility
flag recorded for them.  Inbound JSON messages are parsed on a
background listener thread in handle_websocket_message; for each message
the handler registers one or two callbacks on the Blender timer queue
(set_object_visibility always, update_object_position only when the
message says the object is visible), and those callbacks mutate the
registry later, on the timer queue.

The embedding below models:
  - the registry-relevant part of a Blender object (location, scale and
    the two hide flags); meshes, materials, particle systems, keyframes
    and the rest of the scene graph are host-runtime collaborators and
    are outside the registry, so they are not modelled;
  - the two dictionaries as functions from labels to optional values;
  - the three registry operations update_object_position,
    set_object_visibility and clear_tracking_objects, translated line by
    line from the source;
  - message parsing with the field defaults of lines 118-125;
  - two execution semantics for a connection: a per-message fold
    (runSerial) in which the callbacks of each message run before the
    next message is parsed, and a trace semantics (runTrace) in which
    receive events and timer executions interleave.  In the trace
    semantics the registered callbacks read the handler frame at call
    time, because the Python lambdas of lines 128-138 close over the
    local variables label, confidence, x, y, z, visible of the handler
    (capture by reference, not by value).  Timers registered with
    first_interval 0.0 are assumed to run in registration order.
-/

namespace MotionTrack

/-- The registry-relevant scene state of one tracked Blender object:
its location, its scale (lines 79 and 83) and the two hide flags set at
creation (lines 22-23) and toggled by set_object_visibility
(lines 96-97).  Coordinates, confidence and scale values are modelled
as rationals. -/
structure TrackedObj where
  location : ℚ × ℚ × ℚ
  scale : ℚ × ℚ × ℚ
  hide_viewport : Bool
  hide_render : Bool
  deriving DecidableEq

/-- The registry of ObjectTrackingReceiver: the dictionaries
tracking_objects and visible_objects, modelled as functions from string
labels to optional values. -/
@[ext]
structure ReceiverState where
  tracking_objects : String → Option TrackedObj
  visible_objects : String → Option Bool

/-- The state after __init__ (lines 9-14): both dictionaries empty. -/
def initState : ReceiverState :=
  { tracking_objects := fun _ => none, visible_objects := fun _ => none }

/-- create_tracking_object (lines 16-70), restricted to the fields the
registry observes: the sphere is created at location (0, 0, 0) with the
default scale and is hidden in viewport and render (lines 19-23). -/
def create_tracking_object : TrackedObj :=
  { location := (0, 0, 0), scale := (1, 1, 1),
    hide_viewport := true, hide_render := true }

/-- Line 82: scale = 0.5 + (confidence * 0.5). -/
def confidence_scale (confidence : ℚ) : ℚ :=
  1/2 + confidence * (1/2)

/-- update_object_position (lines 72-90).  If the label is not yet
tracked, a fresh object is created and the visibility entry for the
label is initialised to False (lines 74-76); then the location and the
uniform confidence-derived scale are written (lines 78-83).  The
keyframe insertions of lines 86-88 are host-runtime calls with no
registry effect. -/
def update_object_position (s : ReceiverState) (label : String)
    (x y z confidence : ℚ) : ReceiverState :=
  let s1 : ReceiverState :=
    if (s.tracking_objects label).isSome then s
    else
      { tracking_objects := fun l =>
          if l = label then some create_tracking_object else s.tracking_objects l,
        visible_objects := fun l =>
          if l = label then some false else s.visible_objects l }
  let obj := (s1.tracking_objects label).getD create_tracking_object
  let sc := confidence_scale confidence
  let obj1 := { obj with location := (x, y, z), scale := (sc, sc, sc) }
  { s1 with tracking_objects := fun l =>
      if l = label then some obj1 else s1.tracking_objects l }

/-- set_object_visibility (lines 92-106).  If the label is tracked, the
hide flags of its object are set to the negation of the flag and the
visibility entry is recorded (lines 94-105); otherwise nothing happens.
The particle object of lines 100-103 lives in bpy.data, outside the
registry. -/
def set_object_visibility (s : ReceiverState) (label : String)
    (visible : Bool) : ReceiverState :=
  match s.tracking_objects label with
  | none => s
  | some obj =>
      let obj1 := { obj with hide_viewport := !visible, hide_render := !visible }
      { tracking_objects := fun l =>
          if l = label then some obj1 else s.tracking_objects l,
        visible_objects := fun l =>
          if l = label then some visible else s.visible_objects l }

/-- clear_tracking_objects (lines 184-197): both dictionaries are
cleared.  The removal of the Blender objects themselves is a scene
graph effect outside the registry. -/
def clear_tracking_objects (_s : ReceiverState) : ReceiverState :=
  { tracking_objects := fun _ => none, visible_objects := fun _ => none }

/-- The optional coordinates dictionary of a message (line 120); each
of x, y, z may be missing (lines 123-125). -/
structure RawCoords where
  x : Option ℚ
  y : Option ℚ
  z : Option ℚ
  deriving DecidableEq

/-- A parsed JSON message with the four fields the handler reads
(lines 118-121); every field may be missing. -/
structure RawMsg where
  label : Option String
  confidence : Option ℚ
  coordinates : Option RawCoords
  visible : Option Bool
  deriving DecidableEq

/-- One inbound frame on the socket: either text that fails JSON
parsing (line 140) or a parsed message. -/
inductive Inbound where
  | invalid (text : String)
  | valid (msg : RawMsg)
  deriving DecidableEq

/-- The values of the handler frame variables label, confidence, x, y,
z, visible after lines 118-125 ran for one message. -/
structure Eff where
  label : String
  confidence : ℚ
  x : ℚ
  y : ℚ
  z : ℚ
  visible : Bool
  deriving DecidableEq

/-- Lines 118-125: data.get with defaults.  label defaults to
"unknown", confidence to 0.0, the coordinates dictionary to the empty
dictionary, each coordinate to 0, and visible to True. -/
def extractMsg (m : RawMsg) : Eff :=
  let coords := m.coordinates.getD { x := none, y := none, z := none }
  { label := m.label.getD "unknown"
    confidence := m.confidence.getD 0
    x := coords.x.getD 0
    y := coords.y.getD 0
    z := coords.z.getD 0
    visible := m.visible.getD true }

/-- The combined registry effect of the callbacks scheduled for one
message, in registration order: set_object_visibility first
(lines 128-131), then, only when the message is visible,
update_object_position (lines 134-138). -/
def applyEff (s : ReceiverState) (e : Eff) : ReceiverState :=
  let s1 := set_object_visibility s e.label e.visible
  if e.visible then update_object_position s1 e.label e.x e.y e.z e.confidence
  else s1

/-- One loop iteration of handle_websocket_message under the serialized
schedule: text failing JSON parsing is caught and dropped (lines
140-141); a parsed message has its scheduled callbacks applied. -/
def processInbound (s : ReceiverState) (m : Inbound) : ReceiverState :=
  match m with
  | .invalid _ => s
  | .valid r => applyEff s (extractMsg r)

/-- Processing a whole connection under the serialized schedule: both
callbacks of each message run before the next message is parsed. -/
def runSerial (ms : List Inbound) : ReceiverState :=
  ms.foldl processInbound initState

/-- The two callback bodies registered on the timer queue
(lines 129 and 136). -/
inductive TimerKind where
  | setVis
  | updPos
  deriving DecidableEq

/-- Executing one queued callback.  The callback reads the handler
frame f at call time: the lambdas of lines 128-138 close over the
handler local variables, so a callback that runs after a later message
was parsed sees the values of that later message. -/
def runTimer (k : TimerKind) (f : Eff) (s : ReceiverState) : ReceiverState :=
  match k with
  | .setVis => set_object_visibility s f.label f.visible
  | .updPos => update_object_position s f.label f.x f.y f.z f.confidence

/-- An event on one connection: the listener thread parses one inbound
frame, or the timer queue runs its oldest due callback. -/
inductive Event where
  | recv (m : Inbound)
  | tick
  deriving DecidableEq

/-- The state of one connection: the handler frame variables, the queue
of registered but not yet executed callbacks, and the registry. -/
structure ConnState where
  frame : Eff
  pending : List TimerKind
  registry : ReceiverState

/-- The callbacks registered for a message whose extracted frame is f:
set_object_visibility always, update_object_position only when the
message is visible (lines 128-138), in that order. -/
def schedOf (f : Eff) : List TimerKind :=
  if f.visible then [TimerKind.setVis, TimerKind.updPos] else [TimerKind.setVis]

/-- One step of the connection.  A receive event parses the frame on
the listener thread and registers callbacks; it mutates no registry
state.  A tick runs the oldest pending callback against the current
handler frame. -/
def stepEvent (cs : ConnState) (ev : Event) : ConnState :=
  match ev with
  | .recv (.invalid _) => cs
  | .recv (.valid r) =>
      let f := extractMsg r
      { cs with frame := f, pending := cs.pending ++ schedOf f }
  | .tick =>
      match cs.pending with
      | [] => cs
      | k :: rest =>
          { cs with pending := rest, registry := runTimer k cs.frame cs.registry }

/-- Connection start: no callback has been registered and the registry
is empty.  The initial frame is arbitrary; it is never read, since the
queue is empty until the first receive overwrites the frame. -/
def initConn : ConnState :=
  { frame := { label := "unknown", confidence := 0, x := 0, y := 0, z := 0,
               visible := true },
    pending := [], registry := initState }

/-- Running a whole event trace of one connection. -/
def runTrace (evs : List Event) : ConnState :=
  evs.foldl stepEvent initConn

/-- Modelled from the spec: the spec asserts that each scheduled update
carries the label, coordinates, confidence and visibility of the
specific message that triggered it, i.e. that the registered callbacks
capture the frame by value.  This connection state stores a frame
snapshot with every queued callback; it is the spec-side reference for
the trace semantics above. -/
structure ConnStateSpec where
  pending : List (TimerKind × Eff)
  registry : ReceiverState

/-- Modelled from the spec: one step of the capture-by-value semantics.
Identical to stepEvent except that every queued callback carries the
frame of the message that registered it. -/
def stepEventSpec (cs : ConnStateSpec) (ev : Event) : ConnStateSpec :=
  match ev with
  | .recv (.invalid _) => cs
  | .recv (.valid r) =>
      let f := extractMsg r
      { cs with pending := cs.pending ++ (schedOf f).map (fun k => (k, f)) }
  | .tick =>
      match cs.pending with
      | [] => cs
      | (k, f) :: rest =>
          { pending := rest, registry := runTimer k f cs.registry }

/-- Running a whole event trace under the capture-by-value semantics. -/
def runTraceSpec (evs : List Event) : ConnStateSpec :=
  evs.foldl stepEventSpec { pending := [], registry := initState }

/-- The serialized schedule: after each inbound frame the timer queue
is drained (two ticks suffice, since a message registers at most two
callbacks and a tick on an empty queue does nothing). -/
def serializedEvents : List Inbound → List Event
  | [] => []
  | m :: ms => Event.recv m :: Event.tick :: Event.tick :: serializedEvents ms

/-- The last element of a list, with a default for the empty list. -/
def lastD {α : Type} : List α → α → α
  | [], d => d
  | a :: l, _ => lastD l a

/-- The last element of a list, if any. -/
def lastOpt {α : Type} : List α → Option α
  | [] => none
  | a :: l => some (lastD l a)

/-- The pair of registry entries for one label. -/
def entryOf (L : String) (s : ReceiverState) : Option TrackedObj × Option Bool :=
  (s.tracking_objects L, s.visible_objects L)

/-- The effect of the callbacks of one message on the entry pair of the
label of that message: first the set_object_visibility effect, then,
when the message is visible, the update_object_position effect. -/
def pairStep (p : Option TrackedObj × Option Bool) (e : Eff) :
    Option TrackedObj × Option Bool :=
  let p1 :=
    match p.1 with
    | none => p
    | some obj =>
        (some { obj with hide_viewport := !e.visible, hide_render := !e.visible },
         some e.visible)
  if e.visible then
    let p2 := if p1.1.isSome then p1 else (some create_tracking_object, some false)
    let obj := p2.1.getD create_tracking_object
    let sc := confidence_scale e.confidence
    (some { obj with location := (e.x, e.y, e.z), scale := (sc, sc, sc) }, p2.2)
  else p1

/-- The object stored for an already-tracked label after the callbacks
of one message ran. -/
def pairStepSome (obj : TrackedObj) (e : Eff) : TrackedObj :=
  if e.visible then
    { location := (e.x, e.y, e.z),
      scale := (confidence_scale e.confidence, confidence_scale e.confidence,
                confidence_scale e.confidence),
      hide_viewport := !e.visible, hide_render := !e.visible }
  else { obj with hide_viewport := !e.visible, hide_render := !e.visible }

/-- The object stored when the first visible message for a label
creates its entry: location and scale of that message, hide flags still
true, because set_object_visibility ran before the entry existed. -/
def createdObj (e : Eff) : TrackedObj :=
  { location := (e.x, e.y, e.z),
    scale := (confidence_scale e.confidence, confidence_scale e.confidence,
              confidence_scale e.confidence),
    hide_viewport := true, hide_render := true }

/-- Declarative description of how an existing entry (obj, b) evolves
under a list of messages for its label: the recorded visibility is the
flag of the last message (default b), the hide flags are its negation,
and location and scale come from the last visible message (default the
current object). -/
def evolveSpec (obj : TrackedObj) (b : Bool) (es : List Eff) : TrackedObj × Bool :=
  let b1 := lastD (es.map (fun e => e.visible)) b
  let core :=
    match lastOpt (es.filter (fun e => e.visible)) with
    | none => obj
    | some e =>
        { obj with location := (e.x, e.y, e.z),
                   scale := (confidence_scale e.confidence,
                             confidence_scale e.confidence,
                             confidence_scale e.confidence) }
  ({ core with hide_viewport := !b1, hide_render := !b1 }, b1)

/-- Declarative description of the final entry pair of a label from the
list of messages for that label, starting with no entry: messages
before the first visible one are dropped, the first visible message
creates the entry with its location and scale but with recorded
visibility false, and the remaining messages evolve it. -/
def entrySpec (es : List Eff) : Option TrackedObj × Option Bool :=
  match es.dropWhile (fun e => !e.visible) with
  | [] => (none, none)
  | e0 :: post =>
      let r := evolveSpec (createdObj e0) false post
      (some r.1, some r.2)

/-- The extracted frames of the parseable messages of a connection. -/
def effMsgs (ms : List Inbound) : List Eff :=
  ms.filterMap (fun m =>
    match m with
    | .invalid _ => none
    | .valid r => some (extractMsg r))

/-- The extracted frames of the parseable messages whose label is L. -/
def effsFor (L : String) (ms : List Inbound) : List Eff :=
  (effMsgs ms).filter (fun e => e.label == L)

/-- The two dictionaries have the same key set. -/
def keysAligned (s : ReceiverState) : Prop :=
  ∀ l, (s.tracking_objects l).isSome = (s.visible_objects l).isSome

/-- Concrete message: label "a", confidence 1, coordinates (1, 1, 1),
visible true. -/
def msgA : RawMsg :=
  { label := some "a", confidence := some 1,
    coordinates := some { x := some 1, y := some 1, z := some 1 },
    visible := some true }

/-- Concrete message: label "a", confidence 0, coordinates (2, 2, 2),
visible false. -/
def msgA2 : RawMsg :=
  { label := some "a", confidence := some 0,
    coordinates := some { x := some 2, y := some 2, z := some 2 },
    visible := some false }

/-- Concrete message: label "b", confidence 1, coordinates (3, 3, 3),
visible true. -/
def msgB : RawMsg :=
  { label := some "b", confidence := some 1,
    coordinates := some { x := some 3, y := some 3, z := some 3 },
    visible := some true }

/-- Concrete message with every field missing. -/
def emptyMsg : RawMsg :=
  { label := none, confidence := none, coordinates := none, visible := none }

/-- A burst schedule: the messages for "a" and "b" are both parsed
before any timer callback runs, then the queue is drained. -/
def deferredTrace : List Event :=
  [Event.recv (Inbound.valid msgA), Event.recv (Inbound.valid msgB),
   Event.tick, Event.tick, Event.tick, Event.tick]

/-- The serialized schedule for the same two messages. -/
def serialTraceAB : List Event :=
  serializedEvents [Inbound.valid msgA, Inbound.valid msgB]

theorem entryOf_applyEff (s : ReceiverState) (e : Eff) (L : String) :
    entryOf L (applyEff s e) =
      if e.label = L then pairStep (entryOf L s) e else entryOf L s := by
  by_cases hL : e.label = L
  · subst hL
    rw [if_pos rfl]
    unfold applyEff set_object_visibility update_object_position pairStep entryOf
    cases hT : s.tracking_objects e.label <;> cases hv : e.visible <;>
      simp [hT, hv]
  · rw [if_neg hL]
    have hL2 : ¬ (L = e.label) := fun h => hL h.symm
    unfold applyEff set_object_visibility update_object_position entryOf
    cases hT : s.tracking_objects e.label <;> cases hv : e.visible <;>
      simp [hT, hv, hL2]



theorem effsFor_cons_invalid (L : String) (t : String) (ms : List Inbound) :
    effsFor L (Inbound.invalid t :: ms) = effsFor L ms := by
  simp [effsFor, effMsgs, List.filterMap_cons]

theorem effsFor_cons_valid (L : String) (r : RawMsg) (ms : List Inbound) :
    effsFor L (Inbound.valid r :: ms) =
      if (extractMsg r).label = L then extractMsg r :: effsFor L ms
      else effsFor L ms := by
  by_cases h : (extractMsg r).label = L <;>
    simp [effsFor, effMsgs, List.filterMap_cons, List.filter_cons, h]

theorem entryOf_foldl (ms : List Inbound) : ∀ (s : ReceiverState) (L : String),
    entryOf L (ms.foldl processInbound s) =
      (effsFor L ms).foldl pairStep (entryOf L s) := by
  induction ms with
  | nil => intro s L; rfl
  | cons m ms ih =>
    intro s L
    cases m with
    | invalid t =>
        rw [effsFor_cons_invalid, List.foldl_cons]
        exact ih s L
    | valid r =>
        rw [List.foldl_cons, effsFor_cons_valid]
        have hstep : ms.foldl processInbound (processInbound s (Inbound.valid r))
            = ms.foldl processInbound (applyEff s (extractMsg r)) := rfl
        rw [hstep, ih, entryOf_applyEff]
        by_cases h : (extractMsg r).label = L
        · rw [if_pos h, if_pos h, List.foldl_cons]
        · rw [if_neg h, if_neg h]



@[simp]
theorem lastD_nil {α : Type} (d : α) : lastD [] d = d := rfl

@[simp]
theorem lastD_cons {α : Type} (a : α) (l : List α) (d : α) :
    lastD (a :: l) d = lastD l a := rfl

@[simp]
theorem lastOpt_nil {α : Type} : lastOpt ([] : List α) = none := rfl

@[simp]
theorem lastOpt_cons {α : Type} (a : α) (l : List α) :
    lastOpt (a :: l) = some (lastD l a) := rfl

theorem pairStep_some (obj : TrackedObj) (v : Option Bool) (e : Eff) :
    pairStep (some obj, v) e = (some (pairStepSome obj e), some e.visible) := by
  cases hv : e.visible <;> simp [pairStep, pairStepSome, hv]

theorem pairStepSome_idem (obj : TrackedObj) (e : Eff) :
    pairStepSome (pairStepSome obj e) e = pairStepSome obj e := by
  cases hv : e.visible <;> simp [pairStepSome, hv]

theorem pairStep_none_not_visible (v : Option Bool) (e : Eff)
    (hv : e.visible = false) : pairStep (none, v) e = (none, v) := by
  simp [pairStep, hv]

theorem pairStep_none_visible (v : Option Bool) (e : Eff)
    (hv : e.visible = true) : pairStep (none, v) e = (some (createdObj e), some false) := by
  simp [pairStep, createdObj, create_tracking_object, hv]

theorem pairStep_idem (p : Option TrackedObj × Option Bool) (e : Eff)
    (h : p.1.isSome = true ∨ e.visible = false) :
    pairStep (pairStep p e) e = pairStep p e := by
  obtain ⟨p1, p2⟩ := p
  cases p1 with
  | some obj =>
      rw [pairStep_some, pairStep_some, pairStepSome_idem]
  | none =>
      have hv : e.visible = false := by
        cases h with
        | inl h => simp at h
        | inr h => exact h
      rw [pairStep_none_not_visible _ _ hv, pairStep_none_not_visible _ _ hv]

theorem evolveSpec_cons (obj : TrackedObj) (b : Bool) (e : Eff) (es : List Eff) :
    evolveSpec obj b (e :: es) = evolveSpec (pairStepSome obj e) e.visible es := by
  cases hv : e.visible <;>
    cases hfil : es.filter (fun x => x.visible) <;>
      simp [evolveSpec, pairStepSome, List.filter_cons, hv, hfil]

theorem foldl_pairStep_some (es : List Eff) : ∀ (obj : TrackedObj) (b : Bool),
    obj.hide_viewport = !b → obj.hide_render = !b →
    es.foldl pairStep (some obj, some b) =
      (some (evolveSpec obj b es).1, some (evolveSpec obj b es).2) := by
  induction es with
  | nil =>
      intro obj b h1 h2
      obtain ⟨loc, sc, hv, hr⟩ := obj
      simp only at h1 h2
      subst h1; subst h2
      simp [evolveSpec]
  | cons e es ih =>
      intro obj b h1 h2
      rw [List.foldl_cons, pairStep_some, evolveSpec_cons]
      apply ih
      · cases hv : e.visible <;> simp [pairStepSome, hv]
      · cases hv : e.visible <;> simp [pairStepSome, hv]

theorem foldl_pairStep_none (es : List Eff) :
    es.foldl pairStep (none, none) = entrySpec es := by
  induction es with
  | nil => rfl
  | cons e es ih =>
      cases hv : e.visible with
      | false =>
          rw [List.foldl_cons, pairStep_none_not_visible _ _ hv, ih]
          simp [entrySpec, List.dropWhile_cons, hv]
      | true =>
          rw [List.foldl_cons, pairStep_none_visible _ _ hv,
            foldl_pairStep_some es (createdObj e) false rfl rfl]
          simp [entrySpec, List.dropWhile_cons, hv]



theorem keysAligned_update (s : ReceiverState) (label : String) (x y z c : ℚ)
    (h : keysAligned s) : keysAligned (update_object_position s label x y z c) := by
  intro l
  unfold update_object_position
  by_cases hl : l = label
  · subst hl
    cases hT : s.tracking_objects l
    · simp [hT]
    · have hv := h l
      rw [hT] at hv
      simp [hT, ← hv]
  · cases hT : (s.tracking_objects label).isSome <;> simp [hT, hl, h l]

theorem keysAligned_setVis (s : ReceiverState) (label : String) (v : Bool)
    (h : keysAligned s) : keysAligned (set_object_visibility s label v) := by
  intro l
  unfold set_object_visibility
  cases hT : s.tracking_objects label with
  | none => exact h l
  | some obj =>
      by_cases hl : l = label
      · subst hl; simp
      · simp [hl, h l]

theorem keysAligned_clear (s : ReceiverState) :
    keysAligned (clear_tracking_objects s) := by
  intro l
  rfl

theorem keysAligned_applyEff (s : ReceiverState) (e : Eff)
    (h : keysAligned s) : keysAligned (applyEff s e) := by
  unfold applyEff
  cases hv : e.visible
  · simpa [hv] using keysAligned_setVis s e.label e.visible h
  · simpa [hv] using
      keysAligned_update (set_object_visibility s e.label e.visible) e.label
        e.x e.y e.z e.confidence (keysAligned_setVis s e.label e.visible h)

theorem keysAligned_foldl (ms : List Inbound) : ∀ s : ReceiverState,
    keysAligned s → keysAligned (ms.foldl processInbound s) := by
  induction ms with
  | nil => intro s h; exact h
  | cons m ms ih =>
      intro s h
      rw [List.foldl_cons]
      apply ih
      cases m with
      | invalid t => exact h
      | valid r => exact keysAligned_applyEff _ _ h

theorem stepEvent_message (f : Eff) (reg : ReceiverState) (m : Inbound) :
    stepEvent (stepEvent (stepEvent ⟨f, [], reg⟩ (Event.recv m)) Event.tick) Event.tick
      = ⟨(match m with | .invalid _ => f | .valid r => extractMsg r), [],
         processInbound reg m⟩ := by
  cases m with
  | invalid t => rfl
  | valid r =>
      cases hv : (extractMsg r).visible with
      | true => simp [stepEvent, schedOf, runTimer, processInbound, applyEff, hv]
      | false => simp [stepEvent, schedOf, runTimer, processInbound, applyEff, hv]

theorem serial_foldl_sim (ms : List Inbound) : ∀ (f : Eff) (reg : ReceiverState),
    ((serializedEvents ms).foldl stepEvent ⟨f, [], reg⟩).registry
        = ms.foldl processInbound reg
    ∧ ((serializedEvents ms).foldl stepEvent ⟨f, [], reg⟩).pending = [] := by
  induction ms with
  | nil => intro f reg; exact ⟨rfl, rfl⟩
  | cons m ms ih =>
      intro f reg
      have key : (serializedEvents (m :: ms)).foldl stepEvent ⟨f, [], reg⟩
          = (serializedEvents ms).foldl stepEvent
              ⟨(match m with | .invalid _ => f | .valid r => extractMsg r), [],
               processInbound reg m⟩ := by
        show (serializedEvents ms).foldl stepEvent
            (stepEvent (stepEvent (stepEvent ⟨f, [], reg⟩ (Event.recv m)) Event.tick)
              Event.tick) = _
        rw [stepEvent_message]
      rw [key, List.foldl_cons]
      exact ih _ _



/-- C1 (amended): after a sequence of inbound messages is processed with
the callbacks of each message applied before the next message, the
registry entry of every label L is described by entrySpec of the
messages for L: the entry exists exactly when some message for L was
visible; location and scale come from the coordinates and confidence of
the last visible message for L, not of the last message; and the
recorded visibility is the flag of the last message for L processed
after the entry was created, which is false, not the flag of the
message, when the creating message is the last one for L. -/
theorem registry_entry_last_update (ms : List Inbound) (L : String) :
    entryOf L (runSerial ms) = entrySpec (effsFor L ms) := by
  rw [runSerial, entryOf_foldl]
  exact foldl_pairStep_none (effsFor L ms)

/-- C1 counterexample: a single visible message for the fresh label "a"
leaves the recorded visibility false although the message said true,
and after a visible message followed by a non-visible one the stored
location is the one of the earlier visible message, not of the last
message. -/
theorem registry_last_message_cex :
    (extractMsg msgA).visible = true
    ∧ (runSerial [Inbound.valid msgA]).visible_objects "a" = some false
    ∧ (extractMsg msgA2).x = 2
    ∧ ((runSerial [Inbound.valid msgA, Inbound.valid msgA2]).tracking_objects "a").map
        (fun o => o.location) = some (1, 1, 1)
    ∧ ((runSerial [Inbound.valid msgA, Inbound.valid msgA2]).tracking_objects "a").map
        (fun o => o.hide_viewport) = some true := by
  decide

/-- C2 (amended): the handler registers one callback for a non-visible
message and two callbacks, visibility first, for a visible one; the
combined registry update of the callbacks of a message is idempotent
whenever the label of the message already has a registry entry, and
always for non-visible messages.  For a first visible message on a
fresh label it is not idempotent. -/
theorem message_update_schedule_and_idempotence :
    (∀ (cs : ConnState) (r : RawMsg),
        (stepEvent cs (Event.recv (Inbound.valid r))).pending.length
          = cs.pending.length + (if (extractMsg r).visible then 2 else 1))
    ∧ ∀ (s : ReceiverState) (e : Eff),
        ((s.tracking_objects e.label).isSome = true ∨ e.visible = false) →
        applyEff (applyEff s e) e = applyEff s e := by
  constructor
  · intro cs r
    cases hv : (extractMsg r).visible <;> simp [stepEvent, schedOf, hv]
  · intro s e h
    have key : ∀ L, entryOf L (applyEff (applyEff s e) e) = entryOf L (applyEff s e) := by
      intro L
      rw [entryOf_applyEff, entryOf_applyEff]
      by_cases hL : e.label = L
      · simp only [if_pos hL]
        apply pairStep_idem
        cases h with
        | inl h1 => left; subst hL; exact h1
        | inr h1 => right; exact h1
      · simp only [if_neg hL]
    exact ReceiverState.ext
      (funext fun L => congrArg Prod.fst (key L))
      (funext fun L => congrArg Prod.snd (key L))

/-- C2 witness: a state in which "a" is tracked, on which the combined
update of msgA is idempotent. -/
theorem message_update_idempotence_witness :
    ((applyEff initState (extractMsg msgA)).tracking_objects
        (extractMsg msgA).label).isSome = true
    ∧ applyEff (applyEff (applyEff initState (extractMsg msgA)) (extractMsg msgA))
          (extractMsg msgA)
        = applyEff (applyEff initState (extractMsg msgA)) (extractMsg msgA) :=
  ⟨by decide,
   message_update_schedule_and_idempotence.2 (applyEff initState (extractMsg msgA))
     (extractMsg msgA) (Or.inl (by decide))⟩

/-- C2 counterexample: from the empty registry, applying the combined
update of the visible message msgA twice records visibility true while
applying it once records false, so the update is not idempotent. -/
theorem message_update_not_idempotent_cex :
    (applyEff (applyEff initState (extractMsg msgA)) (extractMsg msgA)).visible_objects "a"
      ≠ (applyEff initState (extractMsg msgA)).visible_objects "a" := by
  decide

/-- C3: the callbacks registered by handle_websocket_message read the
handler locals at call time, so when the messages for "a" and for "b"
are both parsed before any callback runs, all four callbacks use the
frame of the message for "b": no entry for "a" is ever created, while
under the capture-by-value semantics the spec describes the entry for
"a" exists.  Under the serialized schedule the two semantics agree on
this input. -/
theorem late_binding_callback_behavior :
    (runTrace deferredTrace).pending = []
    ∧ (runTrace deferredTrace).registry.tracking_objects "a" = none
    ∧ ((runTraceSpec deferredTrace).registry.tracking_objects "a").isSome = true
    ∧ ((runTrace serialTraceAB).registry.tracking_objects "a").map
          (fun o => o.location)
        = ((runTraceSpec serialTraceAB).registry.tracking_objects "a").map
          (fun o => o.location) := by
  decide

/-- C4: tracking_objects and visible_objects always have the same key
set: the empty registry satisfies this, each of the three operations
preserves it, and every state reached by processing a connection
satisfies it. -/
theorem key_sets_aligned :
    keysAligned initState
    ∧ (∀ (s : ReceiverState) (label : String) (x y z c : ℚ) (v : Bool),
        keysAligned s →
          keysAligned (update_object_position s label x y z c)
          ∧ keysAligned (set_object_visibility s label v)
          ∧ keysAligned (clear_tracking_objects s))
    ∧ ∀ ms : List Inbound, keysAligned (runSerial ms) := by
  refine ⟨fun l => rfl, ?_, ?_⟩
  · intro s label x y z c v h
    exact ⟨keysAligned_update s label x y z c h, keysAligned_setVis s label v h,
      keysAligned_clear s⟩
  · intro ms
    exact keysAligned_foldl ms initState (fun l => rfl)

/-- C4 witness: the invariant holds for the empty registry and is
preserved by a concrete position update on it. -/
theorem key_sets_aligned_witness :
    keysAligned initState
    ∧ keysAligned (update_object_position initState "a" 1 1 1 1) :=
  ⟨fun _ => rfl,
   (key_sets_aligned.2.1 initState "a" 1 1 1 1 true (fun _ => rfl)).1⟩

/-- C5: the registry updates of a message keyed by a label leave the
entries of every other label unchanged, both for the two callback
bodies and for their combined effect. -/
theorem updates_touch_only_their_label :
    ∀ (s : ReceiverState) (label l : String) (x y z c : ℚ) (v : Bool), l ≠ label →
      (update_object_position s label x y z c).tracking_objects l = s.tracking_objects l
      ∧ (update_object_position s label x y z c).visible_objects l = s.visible_objects l
      ∧ (set_object_visibility s label v).tracking_objects l = s.tracking_objects l
      ∧ (set_object_visibility s label v).visible_objects l = s.visible_objects l
      ∧ ∀ e : Eff, e.label = label →
          (applyEff s e).tracking_objects l = s.tracking_objects l
          ∧ (applyEff s e).visible_objects l = s.visible_objects l := by
  intro s label l x y z c v hl
  have hupd : (update_object_position s label x y z c).tracking_objects l
      = s.tracking_objects l
      ∧ (update_object_position s label x y z c).visible_objects l
      = s.visible_objects l := by
    unfold update_object_position
    cases hT : (s.tracking_objects label).isSome <;> simp [hT, hl]
  have hvis : (set_object_visibility s label v).tracking_objects l = s.tracking_objects l
      ∧ (set_object_visibility s label v).visible_objects l = s.visible_objects l := by
    unfold set_object_visibility
    cases hT : s.tracking_objects label <;> simp [hT, hl]
  refine ⟨hupd.1, hupd.2, hvis.1, hvis.2, ?_⟩
  intro e he
  have hne : ¬ (e.label = l) := fun hh => hl (hh.symm.trans he)
  have key := entryOf_applyEff s e l
  rw [if_neg hne] at key
  exact ⟨congrArg Prod.fst key, congrArg Prod.snd key⟩

/-- C5 witness: updating "a" leaves the entry of "b" unchanged. -/
theorem updates_touch_only_their_label_witness :
    ("b" : String) ≠ "a"
    ∧ (update_object_position initState "a" 1 1 1 1).tracking_objects "b"
        = initState.tracking_objects "b" :=
  ⟨by decide,
   (updates_touch_only_their_label initState "a" "b" 1 1 1 1 true (by decide)).1⟩

/-- C6 (amended): processing is deterministic once the interleaving of
receives and callback executions is fixed; under the serialized
schedule, in which both callbacks of a message run before the next
message is parsed, the final registry is exactly the per-message fold
of the inbound messages, with no callback left pending. -/
theorem serialized_schedule_deterministic (ms : List Inbound) :
    (runTrace (serializedEvents ms)).registry = runSerial ms
    ∧ (runTrace (serializedEvents ms)).pending = [] :=
  serial_foldl_sim ms initConn.frame initState

/-- C6 counterexample: the same two inbound messages, with all
scheduled callbacks applied in both runs, give different final
registries under two schedules: the serialized schedule creates an
entry for "a", the burst schedule does not. -/
theorem schedule_dependent_registry_cex :
    (runTrace serialTraceAB).pending = []
    ∧ (runTrace deferredTrace).pending = []
    ∧ (runTrace serialTraceAB).registry.tracking_objects "a"
        ≠ (runTrace deferredTrace).registry.tracking_objects "a" := by
  decide

/-- C7: a receive event, executed by the background listener thread,
never changes the registry and only appends callbacks to the timer
queue; the registry changes only when a tick runs the oldest queued
callback.  That ticks run on the Blender main thread is a property of
bpy.app.timers taken from the host runtime. -/
theorem recv_mutates_no_registry :
    (∀ (cs : ConnState) (m : Inbound),
        (stepEvent cs (Event.recv m)).registry = cs.registry
        ∧ ∃ ks, (stepEvent cs (Event.recv m)).pending = cs.pending ++ ks)
    ∧ ∀ cs : ConnState,
        (stepEvent cs Event.tick).registry =
          match cs.pending with
          | [] => cs.registry
          | k :: _ => runTimer k cs.frame cs.registry := by
  constructor
  · intro cs m
    cases m with
    | invalid t => exact ⟨rfl, [], (List.append_nil _).symm⟩
    | valid r => exact ⟨rfl, schedOf (extractMsg r), rfl⟩
  · intro cs
    obtain ⟨f, p, reg⟩ := cs
    cases p <;> rfl

/-- C8: missing message fields get defaults before dispatch: label
"unknown", confidence 0, each missing coordinate 0 (also when the whole
coordinates dictionary is missing), visibility true; and a message with
no label and no visibility flag creates a registry entry keyed
"unknown". -/
theorem missing_fields_defaults :
    (∀ m : RawMsg, m.label = none → (extractMsg m).label = "unknown")
    ∧ (∀ m : RawMsg, m.confidence = none → (extractMsg m).confidence = 0)
    ∧ (∀ m : RawMsg, m.visible = none → (extractMsg m).visible = true)
    ∧ (∀ m : RawMsg, m.coordinates = none →
        (extractMsg m).x = 0 ∧ (extractMsg m).y = 0 ∧ (extractMsg m).z = 0)
    ∧ (∀ (m : RawMsg) (c : RawCoords), m.coordinates = some c →
        (c.x = none → (extractMsg m).x = 0)
        ∧ (c.y = none → (extractMsg m).y = 0)
        ∧ (c.z = none → (extractMsg m).z = 0))
    ∧ ∀ m : RawMsg, m.label = none → m.visible = none →
        ((applyEff initState (extractMsg m)).tracking_objects "unknown").isSome = true
        ∧ ((applyEff initState (extractMsg m)).visible_objects "unknown").isSome = true := by
  refine ⟨?_, ?_, ?_, ?_, ?_, ?_⟩
  · intro m h; simp [extractMsg, h]
  · intro m h; simp [extractMsg, h]
  · intro m h; simp [extractMsg, h]
  · intro m h; simp [extractMsg, h]
  · intro m c h
    exact ⟨fun hx => by simp [extractMsg, h, hx],
           fun hy => by simp [extractMsg, h, hy],
           fun hz => by simp [extractMsg, h, hz]⟩
  · intro m h1 h2
    have hl : (extractMsg m).label = "unknown" := by simp [extractMsg, h1]
    have hv : (extractMsg m).visible = true := by simp [extractMsg, h2]
    constructor
    · simp [applyEff, hv, hl, set_object_visibility, initState,
        update_object_position]
    · simp [applyEff, hv, hl, set_object_visibility, initState,
        update_object_position]

/-- C8 witness: the message with every field missing. -/
theorem missing_fields_defaults_witness :
    emptyMsg.label = none ∧ emptyMsg.visible = none
    ∧ (extractMsg emptyMsg).label = "unknown"
    ∧ (extractMsg emptyMsg).visible = true
    ∧ ((applyEff initState (extractMsg emptyMsg)).tracking_objects "unknown").isSome
        = true :=
  ⟨rfl, rfl, missing_fields_defaults.1 emptyMsg rfl,
   missing_fields_defaults.2.2.1 emptyMsg rfl,
   (missing_fields_defaults.2.2.2.2.2 emptyMsg rfl rfl).1⟩

/-- C9: an inbound frame that is not valid JSON is dropped by the
caught JSONDecodeError: it changes neither the registry nor the
connection state, and removing it from a message sequence does not
change the final registry, so later messages are processed as if it
had not arrived. -/
theorem invalid_json_is_noop :
    (∀ (s : ReceiverState) (t : String), processInbound s (Inbound.invalid t) = s)
    ∧ (∀ (cs : ConnState) (t : String),
        stepEvent cs (Event.recv (Inbound.invalid t)) = cs)
    ∧ ∀ (ms1 ms2 : List Inbound) (t : String),
        runSerial (ms1 ++ Inbound.invalid t :: ms2) = runSerial (ms1 ++ ms2) := by
  refine ⟨fun s t => rfl, fun cs t => rfl, fun ms1 ms2 t => ?_⟩
  unfold runSerial
  rw [List.foldl_append, List.foldl_append, List.foldl_cons]
  rfl

/-- C10: a position update stores the uniform scale
0.5 + confidence * 0.5 on all three axes together with the given
coordinates; for confidence in the unit interval the scale lies in
the interval from 0.5 to 1, and the scale is strictly increasing in
the confidence. -/
theorem scale_from_confidence :
    (∀ (s : ReceiverState) (label : String) (x y z c : ℚ),
        ((update_object_position s label x y z c).tracking_objects label).map
            (fun o => o.scale)
          = some (confidence_scale c, confidence_scale c, confidence_scale c)
        ∧ ((update_object_position s label x y z c).tracking_objects label).map
            (fun o => o.location)
          = some (x, y, z))
    ∧ (∀ c : ℚ, 0 ≤ c → c ≤ 1 →
        1/2 ≤ confidence_scale c ∧ confidence_scale c ≤ 1)
    ∧ ∀ c1 c2 : ℚ, c1 < c2 → confidence_scale c1 < confidence_scale c2 := by
  refine ⟨?_, ?_, ?_⟩
  · intro s label x y z c
    constructor
    · unfold update_object_position
      simp
    · unfold update_object_position
      simp
  · intro c h0 h1
    unfold confidence_scale
    constructor <;> nlinarith
  · intro c1 c2 h
    unfold confidence_scale
    linarith

/-- C10 witness: concrete confidences one half and one quarter. -/
theorem scale_from_confidence_witness :
    (0 : ℚ) ≤ 1/2 ∧ (1/2 : ℚ) ≤ 1
    ∧ (1/2 ≤ confidence_scale (1/2) ∧ confidence_scale (1/2) ≤ 1)
    ∧ (1/4 : ℚ) < 1/2
    ∧ confidence_scale (1/4) < confidence_scale (1/2) :=
  ⟨by norm_num, by norm_num,
   scale_from_confidence.2.1 (1/2) (by norm_num) (by norm_num),
   by norm_num,
   scale_from_confidence.2.2 (1/4) (1/2) (by norm_num)⟩


end MotionTrack
